import Mathlib

/-!
Verification of the pg-essays-to-EPUB content-extraction pipeline.

The development shallowly embeds the parser component (`pg_epub/parser.py`)
and the date normalizer (`pg_epub/scraper.py`) in Lean.  Python strings are
modelled as Lean `String`s, but every operation on them is re-implemented
over `String.data` (`List Char`) so that all definitions reduce in the
kernel and mirror the CPython semantics (`str.strip`, `str.lower`,
substring `in`, the concrete regular expressions used by the source).

The HTML document trees produced by BeautifulSoup/lxml are modelled by the
inductive type `Node`; the external collaborators (network fetcher, PIL
image decoding, `hashlib.md5`, `urllib.parse.urljoin`) are modelled as
components of an `Env` record, exactly at the call granularity the source
uses them.
-/

set_option maxRecDepth 10000

/-! ## Python-faithful character and string helpers -/

/-- Python's `\s` / `str.strip()` whitespace set (ASCII fragment). -/
def isPyWs (c : Char) : Bool :=
  c = ' ' || c = '\t' || c = '\n' || c = '\x0d' || c = '\x0b' || c = '\x0c'

/-- Word character for the regex `\b` boundary: `[A-Za-z0-9_]`. -/
def isWordChar (c : Char) : Bool :=
  ('a' ≤ c && c ≤ 'z') || ('A' ≤ c && c ≤ 'Z') || ('0' ≤ c && c ≤ '9') || c = '_'

def isAsciiDigit (c : Char) : Bool := '0' ≤ c && c ≤ '9'

def isAsciiUpper (c : Char) : Bool := 'A' ≤ c && c ≤ 'Z'

def isAsciiLower (c : Char) : Bool := 'a' ≤ c && c ≤ 'z'

def isAsciiAlpha (c : Char) : Bool := isAsciiUpper c || isAsciiLower c

/-- `str.lower()` on the ASCII fragment. -/
def lowerChar (c : Char) : Char :=
  if isAsciiUpper c then Char.ofNat (c.toNat + 32) else c

def lowerCL (l : List Char) : List Char := l.map lowerChar

def pyLower (s : String) : String := ⟨lowerCL s.data⟩

/-- `str.strip()` (both ends, Python whitespace set). -/
def stripCL (l : List Char) : List Char :=
  ((l.dropWhile isPyWs).reverse.dropWhile isPyWs).reverse

def pyStrip (s : String) : String := ⟨stripCL s.data⟩

/-- `a.isPrefixOf b` for char lists (used by substring search). -/
def prefixCL : List Char → List Char → Bool
  | [], _ => true
  | _ :: _, [] => false
  | a :: as, b :: bs => a = b && prefixCL as bs

/-- Python's substring containment `needle in hay`. -/
def occursCL (nd : List Char) : List Char → Bool
  | [] => nd.isEmpty
  | c :: t => prefixCL nd (c :: t) || occursCL nd t

/-- `needle in hay` on strings. -/
def substrOf (needle hay : String) : Bool := occursCL needle.data hay.data

/-- Number of occurrences of a character (`str.count` for 1-char needles
that cannot overlap). -/
def countCharCL (c : Char) (l : List Char) : Nat :=
  l.foldl (fun n d => if d = c then n + 1 else n) 0

def pyCountChar (s : String) (c : Char) : Nat := countCharCL c s.data

/-- `str.startswith`. -/
def pyStartsWith (s pre : String) : Bool := prefixCL pre.data s.data

/-- `str.endswith`. -/
def pyEndsWith (s suf : String) : Bool := prefixCL suf.data.reverse s.data.reverse

/-- `str.split()` with no argument: split on runs of whitespace, no empty
pieces. -/
def splitWsCL : List Char → List (List Char)
  | [] => []
  | c :: t =>
    if isPyWs c then splitWsCL t
    else
      match splitWsCL t with
      | [] => [[c]]
      | w :: ws =>
        match t with
        | [] => [[c]]
        | d :: _ => if isPyWs d then [c] :: w :: ws else (c :: w) :: ws

def pySplitWs (s : String) : List String := (splitWsCL s.data).map (fun l => ⟨l⟩)

/-- `re.sub(r'\r\n', '\n', text)`. -/
def replCRLF : List Char → List Char
  | '\x0d' :: '\n' :: t => '\n' :: replCRLF t
  | c :: t => c :: replCRLF t
  | [] => []

/-- `re.sub(r'[ \t]+', ' ', p)`: collapse runs of spaces/tabs to one space. -/
def collapseSpTab : List Char → Bool → List Char
  | [], _ => []
  | c :: t, inRun =>
    if c = ' ' || c = '\t' then
      if inRun then collapseSpTab t true else ' ' :: collapseSpTab t true
    else c :: collapseSpTab t false

/-- `str.split('\n')` (also used for plain-text mode). -/
def splitOnNL : List Char → List (List Char)
  | [] => [[]]
  | '\n' :: t => [] :: splitOnNL t
  | c :: t =>
    match splitOnNL t with
    | [] => [[c]]
    | p :: ps => (c :: p) :: ps

/-- Helper for `split2NL`: given the characters after a `'\n'`, decide
whether the greedy regex `\n\s*\n` matches here.  It consumes the maximal
whitespace run and backtracks to the last `'\n'` inside it, returning the
remainder of the input after the matched separator. -/
def sepTail (t : List Char) : Option (List Char) :=
  let ws := t.takeWhile isPyWs
  if ws.contains '\n' then
    some ((ws.reverse.takeWhile (fun c => c ≠ '\n')).reverse ++ t.drop ws.length)
  else none

/-- `re.split(r'\n\s*\n', text)`, implemented with explicit fuel (the fuel
is always instantiated with more than the input length, so it never runs
out). -/
def split2NLAux (fuel : Nat) (cur : List Char) (l : List Char) :
    List (List Char) :=
  match fuel with
  | 0 => [cur.reverse ++ l]
  | fuel + 1 =>
    match l with
    | [] => [cur.reverse]
    | '\n' :: t =>
      match sepTail t with
      | some rest => cur.reverse :: split2NLAux fuel [] rest
      | none => split2NLAux fuel ('\n' :: cur) t
    | c :: t => split2NLAux fuel (c :: cur) t

def split2NL (l : List Char) : List (List Char) :=
  split2NLAux (l.length + 1) [] l

/-! ## `ContentParser.text_to_paragraphs` (parser.py lines 178-192) -/

/-- One cleanup step of `text_to_paragraphs`: `p.strip()` followed by
`re.sub(r'[ \t]+', ' ', p)`. -/
def cleanPara (p : String) : String := ⟨collapseSpTab (stripCL p.data) false⟩

/-- `ContentParser.text_to_paragraphs`: normalize `\r\n`, split on blank
lines, clean each candidate, keep candidates `p` with `p` truthy and
`len(p) > 10`. -/
def text_to_paragraphs (text : String) : List String :=
  ((split2NL (replCRLF text.data)).map (fun l => cleanPara ⟨l⟩)).filter
    (fun p => p ≠ "" && 10 < p.length)

/-! ## `Scraper.parse_date_string` (scraper.py lines 55-91) -/

def monthTable : List (String × String) :=
  [("january", "01"), ("february", "02"), ("march", "03"),
   ("april", "04"), ("may", "05"), ("june", "06"),
   ("july", "07"), ("august", "08"), ("september", "09"),
   ("october", "10"), ("november", "11"), ("december", "12")]

/-- Case-insensitive match of a month name at the head of the input;
returns the month number and the remaining characters. -/
def monthAt (l : List Char) : Option (String × List Char) :=
  monthTable.foldr
    (fun (m : String × String) acc =>
      if prefixCL m.1.data (lowerCL (l.take m.1.length)) &&
          m.1.length ≤ l.length then
        some (m.2, l.drop m.1.length)
      else acc)
    none

/-- Match `\s+(\d{4})` after a month name: at least one whitespace char,
then four ASCII digits (further digits may follow, as in `re`). -/
def wsYearAt (l : List Char) : Option String :=
  let ws := l.takeWhile isPyWs
  if ws.isEmpty then none
  else
    let r := l.drop ws.length
    match r with
    | d1 :: d2 :: d3 :: d4 :: _ =>
      if isAsciiDigit d1 && isAsciiDigit d2 && isAsciiDigit d3 && isAsciiDigit d4 then
        some ⟨[d1, d2, d3, d4]⟩
      else none
    | _ => none

/-- Leftmost search for
`(January|...|December)\s+(\d{4})` with `re.IGNORECASE`
(returns `(month number, year digits)`). -/
def searchMonthYear : List Char → Option (String × String)
  | [] => none
  | c :: t =>
    match monthAt (c :: t) with
    | some (num, rest) =>
      match wsYearAt rest with
      | some y => some (num, y)
      | none => searchMonthYear t
    | none => searchMonthYear t

/-- Four digits starting `19` or `20` at the head, with a `\b` boundary
after them. -/
def yearHere : List Char → Option String
  | d1 :: d2 :: d3 :: d4 :: rest =>
    if ((d1 = '1' && d2 = '9') || (d1 = '2' && d2 = '0')) &&
        isAsciiDigit d3 && isAsciiDigit d4 then
      match rest with
      | [] => some ⟨[d1, d2, d3, d4]⟩
      | e :: _ => if isWordChar e then none else some ⟨[d1, d2, d3, d4]⟩
    else none
  | _ => none

/-- Leftmost search for `\b(19\d{2}|20\d{2})\b`; `prev` is the character
before the current position (for the opening `\b`). -/
def searchYearAux (prev : Option Char) : List Char → Option String
  | [] => none
  | c :: t =>
    let boundaryOk := match prev with
      | none => true
      | some p => !isWordChar p
    match (if boundaryOk then yearHere (c :: t) else none) with
    | some y => some y
    | none => searchYearAux (some c) t

def searchYear (l : List Char) : Option String := searchYearAux none l

/-- `Scraper.parse_date_string`: returns `(iso_date?, kept label)`.
Empty input short-circuits to `(None, "")`; otherwise the label is
stripped, a `Month Year` match yields `YYYY-MM-01`, a bare
`19xx`/`20xx` year yields `YYYY-01-01`, anything else `(None, stripped)`. -/
def parse_date_string (date_str : String) : Option String × String :=
  if date_str = "" then (none, "")
  else
    let t := pyStrip date_str
    match searchMonthYear t.data with
    | some (m, y) => (some (y ++ "-" ++ m ++ "-01"), t)
    | none =>
      match searchYear t.data with
      | some y => (some (y ++ "-01-01"), t)
      | none => (none, t)

/-! ## `ContentParser.escape_html` (parser.py lines 575-582)

Replacing `&` first and the other four characters afterwards is equivalent
to a single character-wise substitution, because no replacement string
contains a character that a later `.replace` call rewrites. -/

def escChar (c : Char) : String :=
  if c = '&' then "&amp;"
  else if c = '<' then "&lt;"
  else if c = '>' then "&gt;"
  else if c = '"' then "&quot;"
  else if c = '\'' then "&#39;"
  else ⟨[c]⟩

def escape_html (s : String) : String := String.join (s.data.map escChar)

/-! ## Document trees (model of BeautifulSoup/lxml parse trees) -/

/-- Bytes returned by the binary fetcher / stored in the image cache. -/
abbrev Bytes := List Nat

inductive Node where
  | text (s : String)
  | elem (tag : String) (attrs : List (String × String)) (children : List Node)

def isElemNode : Node → Bool
  | .elem _ _ _ => true
  | .text _ => false

/-- `tag.get(name)` on an attribute list. -/
def getAttr (attrs : List (String × String)) (k : String) : Option String :=
  attrs.lookup k

/-- `tag[name] = v`. -/
def setAttr (attrs : List (String × String)) (k v : String) :
    List (String × String) :=
  if (attrs.lookup k).isSome then
    attrs.map (fun p => if p.1 = k then (k, v) else p)
  else attrs ++ [(k, v)]

mutual
/-- All `NavigableString`s below a node, in document order (`.strings`).-/
def stringsN : Node → List String
  | .text s => [s]
  | .elem _ _ cs => stringsL cs

def stringsL : List Node → List String
  | [] => []
  | n :: ns => stringsN n ++ stringsL ns
end

mutual
/-- `get_text(strip=True)`: concatenation of the individually stripped
strings (empty ones vanish in the join). -/
def getTextStripN : Node → String
  | .text s => pyStrip s
  | .elem _ _ cs => textStripL cs

def textStripL : List Node → String
  | [] => ""
  | n :: ns => getTextStripN n ++ textStripL ns
end

def joinSep (sep : String) : List String → String
  | [] => ""
  | [x] => x
  | x :: xs => x ++ sep ++ joinSep sep xs

/-- `get_text(separator='\n')`: every string joined with the separator. -/
def getTextSepNL (n : Node) : String := joinSep "\n" (stringsN n)

mutual
/-- `find_all(tag)`: matching elements in document (pre-)order. -/
def faN (tag : String) : Node → List Node
  | .text _ => []
  | .elem t a cs => (if t = tag then [Node.elem t a cs] else []) ++ faL tag cs

def faL (tag : String) : List Node → List Node
  | [] => []
  | n :: ns => faN tag n ++ faL tag ns
end

def voidTags : List String :=
  ["br", "img", "hr", "meta", "link", "input", "area", "base", "col",
   "embed", "source", "wbr"]

/-- Text-node escaping used by BeautifulSoup output (`&`, `<`, `>`). -/
def escTextChar (c : Char) : String :=
  if c = '&' then "&amp;"
  else if c = '<' then "&lt;"
  else if c = '>' then "&gt;"
  else ⟨[c]⟩

def escTextS (s : String) : String := String.join (s.data.map escTextChar)

def escAttrChar (c : Char) : String :=
  if c = '&' then "&amp;"
  else if c = '"' then "&quot;"
  else if c = '<' then "&lt;"
  else if c = '>' then "&gt;"
  else ⟨[c]⟩

def escAttrS (s : String) : String := String.join (s.data.map escAttrChar)

def attrsStr (attrs : List (String × String)) : String :=
  String.join (attrs.map (fun p => " " ++ p.1 ++ "=\"" ++ escAttrS p.2 ++ "\""))

mutual
/-- `str(tag)`: serialization of a node back to markup. -/
def serN : Node → String
  | .text s => escTextS s
  | .elem t a cs =>
    if voidTags.contains t then "<" ++ t ++ attrsStr a ++ "/>"
    else "<" ++ t ++ attrsStr a ++ ">" ++ serL cs ++ "</" ++ t ++ ">"

def serL : List Node → String
  | [] => ""
  | n :: ns => serN n ++ serL ns
end

/-! ## `ContentParser.remove_navigation` (parser.py lines 194-225) -/

def nav_keywords : List String :=
  ["home", "essays", "h&p", "books", "yc", "arc", "bel", "lisp",
   "spam", "responses", "faqs", "raqs", "quotes", "rss", "bio",
   "twitter", "mastodon", "x.com"]

/-- Decision for one `<table>`: short text with ≥3 navigation keywords as
substrings, or ≥5 links of which ≥3 have link text equal to a keyword. -/
def navTablePred (n : Node) : Bool :=
  let txt := pyLower (getTextStripN n)
  (txt.length < 500 &&
    3 ≤ (nav_keywords.filter (fun kw => substrOf kw txt)).length) ||
  (let links := faN "a" n
   5 ≤ links.length &&
     3 ≤ (links.filter
       (fun a => nav_keywords.contains (pyLower (getTextStripN a)))).length)

mutual
def rmTabN : Node → Option Node
  | .text s => some (.text s)
  | .elem t a cs =>
    if t = "table" && navTablePred (.elem t a cs) then none
    else some (.elem t a (rmTabL cs))

def rmTabL : List Node → List Node
  | [] => []
  | n :: ns =>
    match rmTabN n with
    | none => rmTabL ns
    | some n' => n' :: rmTabL ns
end

/-- Decision for one `<img>`: src or alt contains a navigation keyword. -/
def navImgPred (attrs : List (String × String)) : Bool :=
  let src := pyLower ((getAttr attrs "src").getD "")
  let alt := pyLower ((getAttr attrs "alt").getD "")
  nav_keywords.any (fun kw => substrOf kw src || substrOf kw alt)

mutual
def rmImgN : Node → Option Node
  | .text s => some (.text s)
  | .elem t a cs =>
    if t = "img" && navImgPred a then none
    else some (.elem t a (rmImgL cs))

def rmImgL : List Node → List Node
  | [] => []
  | n :: ns =>
    match rmImgN n with
    | none => rmImgL ns
    | some n' => n' :: rmImgL ns
end

/-! ## `ContentParser.convert_br_to_paragraphs` (parser.py lines 165-176)

The regex `(<br\s*/?>[\s\n]*){2,}` / `<br\s*/?>` acts on the serialized
markup; on the tree this replaces every maximal run of attribute-less
`<br>` elements separated by whitespace-only text with `"\n\n"` (also
consuming the whitespace immediately after the run), and a lone `<br>`
with `"\n"`.  The subsequent re-parse merges adjacent text nodes
(`mergeLevel`). -/

/-- Count further `<br>`s continuing a run (input starts just after a
`<br>`); returns the count and the remainder after the run. -/
def brRun : List Node → Nat × List Node
  | Node.elem "br" [] _ :: rest =>
    let p := brRun rest
    (p.1 + 1, p.2)
  | Node.text w :: Node.elem "br" [] bc :: rest =>
    if stripCL w.data = [] then
      let p := brRun rest
      (p.1 + 1, p.2)
    else (0, Node.text w :: Node.elem "br" [] bc :: rest)
  | l => (0, l)

/-- After a `{2,}` match the trailing `[\s\n]*` also eats leading
whitespace of the following text. -/
def eatLeadingWs : List Node → List Node
  | Node.text w :: rest =>
    let w' := w.data.dropWhile isPyWs
    if w'.isEmpty then rest else Node.text ⟨w'⟩ :: rest
  | l => l

def brGo : Nat → List Node → List Node
  | 0, l => l
  | _ + 1, [] => []
  | fuel + 1, Node.elem "br" [] _ :: rest =>
    let p := brRun rest
    if 1 ≤ p.1 then Node.text "\n\n" :: brGo fuel (eatLeadingWs p.2)
    else Node.text "\n" :: brGo fuel p.2
  | fuel + 1, n :: rest => n :: brGo fuel rest

def brLevel (cs : List Node) : List Node := brGo (cs.length + 1) cs

mutual
def brN : Node → Node
  | .text s => .text s
  | .elem t a cs => .elem t a (brLevel (brChildren cs))

def brChildren : List Node → List Node
  | [] => []
  | n :: ns => brN n :: brChildren ns
end

/-- Merge adjacent text nodes in one child list (effect of serializing
and re-parsing after the `<br>` substitution). -/
def mergeLevel : List Node → List Node
  | [] => []
  | [n] => [n]
  | .text a :: rest =>
    match mergeLevel rest with
    | .text b :: r => .text (a ++ b) :: r
    | r => .text a :: r
  | n :: rest => n :: mergeLevel rest

mutual
def mergeN : Node → Node
  | .text s => .text s
  | .elem t a cs => .elem t a (mergeLevel (mergeL cs))

def mergeL : List Node → List Node
  | [] => []
  | n :: ns => mergeN n :: mergeL ns
end

/-! ## External collaborators and `ContentParser.download_image`
(parser.py lines 60-127) -/

/-- External collaborators of the parser: the scraper's binary fetcher,
PIL decoding (returning pixel width/height, `none` on any decode
exception), `hashlib.md5(...).hexdigest()`, and `urllib.parse.urljoin`
(its non-raising behaviour; the raising slice is modelled separately by
`pyUrlsplitRaisesIPv6`). -/
structure Env where
  hasScraper : Bool
  fetch : String → Option Bytes
  decode : Bytes → Option (Nat × Nat)
  md5hex : String → String
  urljoin : String → String → String

/-- Mutable state of one `ContentParser` run: the `downloaded_images`
url→cache-path map and the on-disk image cache keyed by filename
(newest entry first; lookup finds the newest). -/
structure PState where
  downloadedImages : List (String × String)
  disk : List (String × Bytes)
deriving DecidableEq

def skip_patterns : List String :=
  ["spacer.gif", "pixel.gif", "1x1.", "blank.gif",
   "trans_1x1.gif", "essays-hierarchical.gif", "rss-hierarchical.gif",
   "dot.gif", "bullet.gif", "clear.gif"]

/-- Extension choice of `download_image`: the URL's suffix among
`.png/.gif/.webp`, defaulting to `.jpg`. -/
def extFromUrl (url : String) : String :=
  let lu := pyLower url
  if pyEndsWith lu ".png" then ".png"
  else if pyEndsWith lu ".gif" then ".gif"
  else if pyEndsWith lu ".webp" then ".webp"
  else ".jpg"

/-- The fetch-validate-name-store path of `download_image` (reached when
the cache misses).  The third component counts `fetch_binary` calls. -/
def downloadFresh (env : Env) (st : PState) (url : String) :
    Option (String × Bytes) × PState × Nat :=
  match env.fetch url with
  | none => (none, st, 1)
  | some data =>
    if data.isEmpty then (none, st, 1)
    else
      match env.decode data with
      | none => (none, st, 1)
      | some (w, h) =>
        if w < 50 || h < 50 then (none, st, 1)
        else if (w < 150 && h < 30) || (h < 150 && w < 30) then (none, st, 1)
        else
          let fn := env.md5hex url ++ extFromUrl url
          (some (fn, data),
           ⟨(url, fn) :: st.downloadedImages, (fn, data) :: st.disk⟩, 1)

/-- `ContentParser.download_image`. -/
def download_image (env : Env) (st : PState) (url : String) :
    Option (String × Bytes) × PState × Nat :=
  if !env.hasScraper then (none, st, 0)
  else if skip_patterns.any (fun p => substrOf p (pyLower url)) then
    (none, st, 0)
  else
    match st.downloadedImages.lookup url with
    | some path =>
      match st.disk.lookup path with
      | some data => (some (path, data), st, 0)
      | none => downloadFresh env st url
    | none => downloadFresh env st url

/-! ## `ContentParser.process_images` (parser.py lines 129-163) -/

structure ImgAcc where
  st : PState
  images : List (String × Bytes)
  seen : List String
  fetches : Nat

mutual
/-- Walk the tree in document order; the first component is `none` when
the node was decomposed. -/
def piN (env : Env) (base : String) : Node → ImgAcc → Option Node × ImgAcc
  | .text s, acc => (some (.text s), acc)
  | .elem t a cs, acc =>
    if t = "img" then
      match getAttr a "src" with
      | none => (none, acc)
      | some src =>
        if src = "" then (none, acc)
        else
          let absSrc := if pyStartsWith src "http" then src
                        else env.urljoin base src
          let r := download_image env acc.st absSrc
          match r.1 with
          | some (fn, data) =>
            (some (.elem t (setAttr a "src" ("images/" ++ fn)) cs),
             { st := r.2.1,
               images := if acc.seen.contains fn then acc.images
                         else acc.images ++ [(fn, data)],
               seen := if acc.seen.contains fn then acc.seen
                       else fn :: acc.seen,
               fetches := acc.fetches + r.2.2 })
          | none =>
            (none, { acc with st := r.2.1, fetches := acc.fetches + r.2.2 })
    else
      let p := piL env base cs acc
      (some (.elem t a p.1), p.2)

def piL (env : Env) (base : String) : List Node → ImgAcc → List Node × ImgAcc
  | [], acc => ([], acc)
  | n :: ns, acc =>
    match piN env base n acc with
    | (some n', acc') =>
      let p := piL env base ns acc'
      (n' :: p.1, p.2)
    | (none, acc') => piL env base ns acc'
end

/-! ## Standalone "related" link removal (parser.py lines 322-353) -/

mutual
/-- Process an element's subtree: its children are scanned left to right
with the element as parent context. -/
def rlN : Node → Node
  | .text s => .text s
  | .elem t a cs => .elem t a (rlGo t [] cs)

/-- Scan one child list.  `pt` is the parent's tag, `pre` the already
processed (kept) prefix in reverse: `pre.head?` is the current previous
sibling, matching the mutated-tree semantics of the source loop. -/
def rlGo (pt : String) (pre : List Node) : List Node → List Node
  | [] => pre.reverse
  | n :: rest =>
    match n with
    | .text s => rlGo pt (Node.text s :: pre) rest
    | .elem t _ _ =>
    if t = "a" then
      let linkText := getTextStripN n
      if linkText.length < 80 then
        let parentText := textStripL (pre.reverse ++ n :: rest)
        if (pt = "li" || pt = "td" || pt = "font") &&
            (parentText = linkText ||
             parentText.length < linkText.length + 10) then
          rlGo pt pre rest
        else
          let prevOk := match pre.head? with
            | none => true
            | some (.elem t' _ _) => t' = "a"
            | some (.text w) => stripCL w.data = []
          let nextOk := match rest.head? with
            | none => true
            | some (.elem t' _ _) => t' = "a"
            | some (.text w) => stripCL w.data = []
          if prevOk && nextOk then rlGo pt pre rest
          else rlGo pt (rlN n :: pre) rest
      else rlGo pt (rlN n :: pre) rest
    else rlGo pt (rlN n :: pre) rest
end

/-! ## Section-header `<b>`/`<strong>` markers (parser.py lines 362-369) -/

mutual
def bmN : Node → Node
  | .text s => .text s
  | .elem t a cs => .elem t a (bmL cs)

def bmL : List Node → List Node
  | [] => []
  | n :: rest =>
    match n with
    | .text s => Node.text s :: bmL rest
    | .elem t _ _ =>
      if (t = "b" || t = "strong") then
        let txt := getTextStripN n
        if 3 < txt.length && txt.length < 100 then
          Node.text "\n\n" :: bmN n :: Node.text "\n\n" :: bmL rest
        else bmN n :: bmL rest
      else bmN n :: bmL rest
end

/-! ## Paragraph exclusion cascade (parser.py lines 377-447) -/

def nav_words : List String :=
  ["want to start a startup? get funded by y combinator",
   "home", "essays", "faq", "raq", "subscribe", "twitter",
   "x.com", "rss", "mastodon", "books", "arc", "bel", "lisp"]

def yc_ad_phrases : List String :=
  ["get funded by", "y combinator", "want to start a startup",
   "get funded by y combinator"]

def related_markers : List String := ["related:", "related links:", "see also:"]

/-- `any(marker in para_lower for marker in related_markers)`. -/
def markerMatch (paraLower : String) : Bool :=
  related_markers.any (fun m => substrOf m paraLower)

/-- Case-insensitive month-name match at the head (used by the date-line
pattern); returns the remainder. -/
def monthNameAt (l : List Char) : Option (List Char) :=
  (monthAt l).map Prod.snd

/-- `\s+`: at least one whitespace character. -/
def takeWs1 (l : List Char) : Option (List Char) :=
  let ws := l.takeWhile isPyWs
  if ws.isEmpty then none else some (l.drop ws.length)

/-- `\d{4}`. -/
def take4Digits : List Char → Option (List Char)
  | d1 :: d2 :: d3 :: d4 :: rest =>
    if isAsciiDigit d1 && isAsciiDigit d2 && isAsciiDigit d3 &&
        isAsciiDigit d4 then some rest
    else none
  | _ => none

/-- `re.match` of the first date pattern
`^Month\s+\d{4}(,\s*rev\.\s*Month\s+\d{4})?$` (IGNORECASE). -/
def dateLine1 (s : String) : Bool :=
  match monthNameAt s.data with
  | none => false
  | some r1 =>
    match takeWs1 r1 with
    | none => false
    | some r2 =>
      match take4Digits r2 with
      | none => false
      | some r3 =>
        r3.isEmpty ||
        (match r3 with
         | ',' :: r4 =>
           let r5 := r4.dropWhile isPyWs
           if prefixCL "rev.".data (lowerCL (r5.take 4)) then
             let r6 := (r5.drop 4).dropWhile isPyWs
             match monthNameAt r6 with
             | none => false
             | some r7 =>
               match takeWs1 r7 with
               | none => false
               | some r8 =>
                 match take4Digits r8 with
                 | none => false
                 | some r9 => r9.isEmpty
           else false
         | _ => false)

/-- `re.match(r'^\d{4}$', ...)`. -/
def dateLine2 (s : String) : Bool :=
  match s.data with
  | [a, b, c, d] =>
    isAsciiDigit a && isAsciiDigit b && isAsciiDigit c && isAsciiDigit d
  | _ => false

def dateLineMatch (s : String) : Bool := dateLine1 s || dateLine2 s

/-- The per-paragraph loop of `extract_main_content` with its sticky
`in_related_section` flag. -/
def cascadeGo (titleLower : String) (flag : Bool) : List String → List String
  | [] => []
  | para :: rest =>
    let pl := pyStrip (pyLower para)
    let ps := pyStrip para
    if markerMatch pl then cascadeGo titleLower true rest
    else if flag then cascadeGo titleLower true rest
    else if pl = titleLower then cascadeGo titleLower flag rest
    else if nav_words.any (fun w => substrOf w pl) && para.length < 100 then
      cascadeGo titleLower flag rest
    else if yc_ad_phrases.any (fun w => substrOf w pl) && para.length < 50 then
      cascadeGo titleLower flag rest
    else if ps = "." || ps = "," then cascadeGo titleLower flag rest
    else if para.length < 60 && substrOf ":" para &&
        pyCountChar para ' ' < 8 &&
        (substrOf " re: " pl || substrOf "translation" pl) then
      cascadeGo titleLower flag rest
    else if dateLineMatch ps then cascadeGo titleLower flag rest
    else para :: cascadeGo titleLower flag rest

def excludeCascade (title : String) (paras : List String) : List String :=
  cascadeGo (pyStrip (pyLower title)) false paras

/-! ## Backward trailing-paragraph removal (parser.py lines 449-476) -/

/-- Short title-case link-title detector (`len(words) < 6`,
`len(text) < 50`, every word of length > 1 starting with an uppercase or
non-alphabetic character). -/
def linkTitleLike (t : String) : Bool :=
  let ws := pySplitWs t
  ws.length < 6 && t.length < 50 &&
    (ws.filter (fun w => 1 < w.length)).all (fun w =>
      match w.data with
      | c :: _ => isAsciiUpper c || !isAsciiAlpha c
      | [] => true)

/-- The reversed scan: input is the container's paragraph texts from the
end backwards; kept paragraphs are returned (still reversed). -/
def ppGo : List String → List String
  | [] => []
  | p :: rest =>
    let t := pyStrip p
    if 60 < t.length || (pyEndsWith t "." && 30 < t.length) then p :: rest
    else if linkTitleLike t then ppGo rest
    else if t.length < 40 && !pyEndsWith t "." then ppGo rest
    else p :: rest

def trailingPostPass (l : List String) : List String := (ppGo l.reverse).reverse

/-- Paragraph-level tail of the pipeline: the exclusion cascade followed
by the backward trailing removal; exactly the paragraphs it returns
become `<p>` children of the output container. -/
def paraPipeline (title : String) (paras : List String) : List String :=
  trailingPostPass (excludeCascade title paras)

/-- Sequence of paragraph texts that end up in the output container:
split/clean, exclusion cascade, backward trailing removal. -/
def extractParas (title rawText : String) : List String :=
  paraPipeline title (text_to_paragraphs rawText)

/-- The output container `<div class="essay-content">` holding one `<p>`
per surviving paragraph. -/
def mkContainer (paras : List String) : Node :=
  .elem "div" [("class", "essay-content")]
    (paras.map (fun p => .elem "p" [] [.text p]))

/-! ## Plain-text mode (parser.py lines 227-269) -/

/-- Code-block line detector of `convert_plaintext_to_html`. -/
def codeLine (line : String) : Bool :=
  pyStartsWith line "  " &&
    (substrOf ";" line || substrOf "(" line || substrOf "def" (pyLower line))

def flushPara (parts : List String) (cur : List String) : List String :=
  if cur.isEmpty then parts
  else parts ++ ["<p>" ++ joinSep " " cur ++ "</p>"]

def plainStep (acc : List String × List String × Bool) (line : String) :
    List String × List String × Bool :=
  let (parts, cur, inCode) := acc
  let stripped := pyStrip line
  if codeLine line then
    if inCode then (parts ++ [escape_html line, "\n"], cur, true)
    else
      (flushPara parts cur ++ ["<pre><code>", escape_html line, "\n"],
       [], true)
  else
    let parts := if inCode then parts ++ ["</code></pre>"] else parts
    if stripped = "" then (flushPara parts cur, [], false)
    else (parts, cur ++ [escape_html stripped], false)

/-- `ContentParser.convert_plaintext_to_html`. -/
def convert_plaintext_to_html (text : String) : String :=
  let lines := (splitOnNL text.data).map (fun l => (⟨l⟩ : String))
  let acc := lines.foldl plainStep (["<div class=\"essay-content\">"], [], false)
  let parts := if acc.2.2 then acc.1 ++ ["</code></pre>"] else acc.1
  let parts := flushPara parts acc.2.1
  joinSep "\n" (parts ++ ["</div>"])

/-! ## `ContentParser.extract_main_content` (parser.py lines 271-479) -/

/-- First element of the maximum-text block, mirroring the stable
`sort(reverse=True)` + take-first of the source. -/
def pickMaxGo (best : Nat × Node) : List (Nat × Node) → Nat × Node
  | [] => best
  | c :: cs => pickMaxGo (if best.1 < c.1 then c else best) cs

/-- Main-content selection: tables with more than 500 characters of
stripped text, else the `<body>`, else the whole document. -/
def selectMain (d1 : List Node) : Node :=
  let tables := faL "table" d1
  let cands := (tables.filter (fun t => 500 < (getTextStripN t).length)).map
    (fun t => ((getTextStripN t).length, t))
  let cands := if cands.isEmpty then
      (match (faL "body" d1).head? with
       | some b => [((getTextStripN b).length, b)]
       | none => [])
    else cands
  match cands with
  | [] =>
    match (faL "body" d1).head? with
    | some b => b
    | none => .elem "[document]" [] d1
  | c :: cs => (pickMaxGo c cs).2

/-- A raw document handed to `extract_main_content`: either plain text
(the source's `not html.strip().startswith('<')` branch) or parsed
markup (the top-level node list of the BeautifulSoup document). -/
inductive RawInput where
  | plainText (s : String)
  | markup (doc : List Node)

structure ExtractOut where
  container : Node
  images : List (String × Bytes)
  st : PState
  fetches : Nat

/-- The markup path of `extract_main_content` on the parse tree:
navigation removal, main-content selection, `<br>` conversion (with the
re-parse's text-node merge), image processing, standalone-link removal,
bold section markers, text extraction with `'\n'` separator, paragraph
split and filtering. -/
def extract_markup (env : Env) (st : PState) (doc : List Node)
    (base title : String) : ExtractOut :=
  let d1 := rmImgL (rmTabL doc)
  let mainContent := selectMain d1
  let m1 := mergeN (brN mainContent)
  let pi := piN env base m1 ⟨st, [], [], 0⟩
  let m2 := match pi.1 with
    | some n => n
    | none => .elem "[document]" [] []
  let m3 := bmN (rlN m2)
  let rawText := getTextSepNL m3
  { container := mkContainer (extractParas title rawText),
    images := pi.2.images, st := pi.2.st, fetches := pi.2.fetches }

/-- `ContentParser.extract_main_content`: returns
`(cleaned_html, images)`. -/
def extract_main_content (env : Env) (st : PState) (input : RawInput)
    (base title : String) : String × List (String × Bytes) :=
  match input with
  | .plainText s => (convert_plaintext_to_html s, [])
  | .markup doc =>
    let o := extract_markup env st doc base title
    (serN o.container, o.images)

/-! ## `ContentParser.build_chapter_html` (parser.py lines 525-573) -/

mutual
/-- Effect of the wrapper-stripping regexes on a parse tree: `<html>`,
`<body>`, `<table>`, `<tr>`, `<td>` tags are deleted (children spliced
in place), `<head>` elements disappear with their contents. -/
def swN : Node → List Node
  | .text s => [.text s]
  | .elem t a cs =>
    if t = "html" || t = "body" || t = "table" || t = "tr" || t = "td" then
      swL cs
    else if t = "head" then []
    else [.elem t a (swL cs)]

def swL : List Node → List Node
  | [] => []
  | n :: ns => swN n ++ swL ns
end

def inlineTags : List String :=
  ["a", "b", "i", "em", "strong", "code", "font", "span", "img", "br",
   "small", "u", "sup", "sub", "tt"]

/-- Phrasing content that a leading implied `<p>` keeps collecting:
text nodes and inline elements. -/
def phrasingNode : Node → Bool
  | .text _ => true
  | .elem t _ _ => inlineTags.contains t

/-- Model of lxml's implied-`<p>` insertion when the stripped fragment is
re-parsed: libxml2 implies a paragraph only for character data that
appears before the body has been entered, i.e. a *leading* text run
(ignorable leading blanks are discarded first); the implied `<p>`
collects the following phrasing run.  Character data appearing after an
element at body level stays a bare `NavigableString` — which the
`if tag.name` filter of `build_chapter_html` then drops. -/
def pWrap : List Node → List Node
  | [] => []
  | .text s :: rest =>
    if stripCL s.data = [] then pWrap rest
    else
      Node.elem "p" [] ((Node.text s :: rest).takeWhile phrasingNode) ::
        (Node.text s :: rest).dropWhile phrasingNode
  | n :: rest => n :: rest

/-- `content_soup.body.children` filtered by `tag.name` (elements only),
after the re-parse of the stripped markup.  Bare text nodes that are not
part of the leading implied `<p>` are lost here, exactly as in the
source's `''.join(str(tag) for tag in ... if tag.name)`. -/
def cleanNodes (content : List Node) : List Node :=
  (pWrap (swL content)).filter isElemNode

/-- Top-level body-flow shape: every node is an element or a
whitespace-only text (no bare visible character data whose text the
`if tag.name` filter would drop). -/
def bodyFlowN : Node → Bool
  | .text s => stripCL s.data = []
  | .elem _ _ _ => true

def bodyFlowL (l : List Node) : Bool := l.all bodyFlowN

/-- Assembly of the chapter document once the length gate has passed:
title heading, optional date line, then the clean content or the
defensive placeholder. -/
def chapterDocStr (title : String) (content : List Node)
    (date_str : Option String) : String :=
  joinSep "\n"
    (["<html xmlns=\"http://www.w3.org/1999/xhtml\">", "<head>",
      "<title>" ++ escape_html title ++ "</title>",
      "<link rel=\"stylesheet\" type=\"text/css\" href=\"style.css\"/>",
      "</head>", "<body>",
      "<h1>" ++ escape_html title ++ "</h1>"]
     ++ (match date_str with
         | some d =>
           if d = "" then []
           else ["<p class=\"essay-date\">" ++ escape_html d ++ "</p>"]
         | none => [])
     ++ [if pyStrip (serL (cleanNodes content)) = "" then
           "<p>Content not available.</p>"
         else serL (cleanNodes content)]
     ++ ["</body>", "</html>"])

/-- `ContentParser.build_chapter_html` on the parsed content fragment.
Returns `""` (the rejection signal) when the stripped content's
`get_text(strip=True)` is empty or shorter than 100 characters. -/
def build_chapter_html (title : String) (content : List Node)
    (date_str : Option String) : String :=
  if (textStripL (swL content)).length < 100 then ""
  else chapterDocStr title content date_str

/-- The body contents of a produced chapter, as parsed back: heading,
optional date line, then the clean content (or the placeholder). -/
def chapterBodyNodes (title : String) (content : List Node)
    (date_str : Option String) : List Node :=
  [Node.elem "h1" [] [Node.text title]]
  ++ (match date_str with
      | some d =>
        if d = "" then []
        else [Node.elem "p" [("class", "essay-date")] [Node.text d]]
      | none => [])
  ++ (if pyStrip (serL (cleanNodes content)) = "" then
        [Node.elem "p" [] [Node.text "Content not available."]]
      else cleanNodes content)

/-! ## Visible text (spec-side definition)

The specification defines visible text length as the "character count of
a node's rendered text content".  Text inside non-rendered elements
(scripts, styles, head-only metadata) is not rendered, unlike
`get_text`, which concatenates every embedded string. -/

def invisibleTags : List String :=
  ["script", "style", "head", "title", "meta", "link", "noscript",
   "template"]

mutual
/-- Rendered (visible) text below a node, with the same per-string
stripping as `get_text(strip=True)` but skipping non-rendered elements. -/
def visN : Node → String
  | .text s => pyStrip s
  | .elem t _ cs => if invisibleTags.contains t then "" else visL cs

def visL : List Node → String
  | [] => ""
  | n :: ns => visN n ++ visL ns
end

/-- Visible text of a produced chapter's body. -/
def chapterVisibleBodyText (title : String) (content : List Node)
    (date_str : Option String) : String :=
  visL (chapterBodyNodes title content date_str)

mutual
/-- No non-rendered (invisible-text) element anywhere in the node. -/
def allVisibleN : Node → Bool
  | .text _ => true
  | .elem t _ cs => !invisibleTags.contains t && allVisibleL cs

def allVisibleL : List Node → Bool
  | [] => true
  | n :: ns => allVisibleN n && allVisibleL ns
end

/-! ## The raising slice of `urllib.parse.urljoin` (used on relative
image URLs, parser.py lines 143-145) -/

/-- Netloc extraction of `urllib.parse.urlsplit` for inputs starting
with `//`. -/
def netlocOf (u : List Char) : List Char :=
  if prefixCL "//".data u then
    (u.drop 2).takeWhile (fun c => c ≠ '/' && c ≠ '?' && c ≠ '#')
  else []

/-- Modelled from `urllib.parse.urlsplit`: the `Invalid IPv6 URL`
`ValueError` raised when the netloc contains `[` without `]` or vice
versa.  `urljoin` calls `urlsplit` on the relative URL, so
`urljoin(base, "//[x")` raises. -/
def pyUrlsplitRaisesIPv6 (url : String) : Bool :=
  let nl := netlocOf url.data
  (nl.contains '[' && !nl.contains ']') ||
  (nl.contains ']' && !nl.contains '[')

/-- `True` when the `process_images` loop reaches an `<img>` whose `src`
must be absolutized and `urljoin` raises on it: `extract_main_content`
then propagates a `ValueError` to its caller. -/
def processImagesRaise (doc : List Node) : Bool :=
  (faL "img" doc).any (fun img =>
    match img with
    | .elem _ a _ =>
      match getAttr a "src" with
      | some s =>
        s ≠ "" && !pyStartsWith s "http" && pyUrlsplitRaisesIPv6 s
      | none => false
    | .text _ => false)

/-- `True` when `extract_main_content` (markup mode) raises: the bad
`<img>` sits in the selected main content processed by
`process_images`. -/
def extractRaises (doc : List Node) : Bool :=
  processImagesRaise [mergeN (brN (selectMain (rmImgL (rmTabL doc))))]

/-! ## Concrete fixtures used by witnesses and counterexamples -/

/-- A parser constructed without a scraper (`ContentParser(scraper=None)`),
as in the repository's own tests. -/
def envNoScraper : Env := ⟨false, fun _ => none, fun _ => none, fun _ => "", fun _ r => r⟩

/-- A parser with a scraper whose fetch always returns one byte, whose
decoder reports a 100×100 raster, and whose `md5.hexdigest` model is the
constant digest `"0a1b2c"`. -/
def envPhoto : Env := ⟨true, fun _ => some [7], fun _ => some (100, 100), fun _ => "0a1b2c", fun _ r => r⟩

def emptyState : PState := ⟨[], []⟩

/-- The document of the spec's end-to-end rejection scenario: its only
content is the YC advertisement sentence. -/
def ycDoc : List Node :=
  [.elem "html" [] [.elem "body" [] [.elem "p" []
    [.text "Want to start a startup? Get funded by Y Combinator."]]]]

/-- A document with one real paragraph and one content image. -/
def zebraDoc : List Node :=
  [.elem "html" [] [.elem "body" []
    [.elem "p" [] [.text "Zebras wander around the wide plains."],
     .elem "img" [("src", "http://site.test/img/photo1.png")] []]]]

/-- Chapter content whose `get_text` has 152 characters but whose visible
(rendered) text is only the two characters `bb`: the rest sits inside a
`<script>` element. -/
def scriptContent : List Node :=
  [.elem "p" [] [.text "bb"],
   .elem "script" [] [.text ⟨List.replicate 150 'a'⟩]]

/-- Chapter content with a single long visible paragraph. -/
def longContent : List Node :=
  [.elem "p" [] [.text ⟨List.replicate 150 'z'⟩]]

/-- Chapter content with no invisible elements whose visible text lives
almost entirely in a bare text node following an element: the re-parse
leaves it a bare `NavigableString` (no implied `<p>` after an element),
so the `if tag.name` filter drops it from the chapter body. -/
def bareTailContent : List Node :=
  [.elem "p" [] [.text "ab"], .text ⟨List.replicate 100 'x'⟩]

/-- A document whose `<img src="//[x">` makes
`urljoin(base_url, src)` raise `ValueError: Invalid IPv6 URL`. -/
def badImgDoc : List Node :=
  [.elem "html" [] [.elem "body" []
    [.elem "p" [] [.text "Essay body text here."],
     .elem "img" [("src", "//[x")] []]]]

/-- The candidate paragraphs of `text_to_paragraphs` after trimming and
whitespace collapsing, before the length filter. -/
def cleanedCandidates (text : String) : List String :=
  (split2NL (replCRLF text.data)).map (fun l => cleanPara ⟨l⟩)

/-- Well-formedness of the download cache: every stored path has the
hash-plus-extension shape `download_image` writes. -/
def dlWF (env : Env) (st : PState) : Bool :=
  st.downloadedImages.all
    (fun p => p.2 = env.md5hex p.1 ++ extFromUrl p.1)

/-! ## Lemmas about the exclusion cascade (claim C3) -/

theorem cascadeGo_flag_true (tl : String) (l : List String) :
    cascadeGo tl true l = [] := by
  induction l with
  | nil => rfl
  | cons p rest ih =>
    simp only [cascadeGo]
    split_ifs <;> exact ih

theorem cascadeGo_marker (tl m : String) (l1 l2 : List String)
    (hm : markerMatch (pyStrip (pyLower m)) = true) :
    cascadeGo tl false (l1 ++ m :: l2) = cascadeGo tl false l1 := by
  induction l1 with
  | nil =>
    simp only [List.nil_append, cascadeGo, hm, if_true]
    exact cascadeGo_flag_true tl l2
  | cons p rest ih =>
    simp only [List.cons_append, cascadeGo]
    split_ifs <;> simp_all [cascadeGo_flag_true]

theorem cascadeGo_sublist (tl : String) (f : Bool) (l : List String) :
    (cascadeGo tl f l).Sublist l := by
  induction l generalizing f with
  | nil => exact List.Sublist.refl _
  | cons p rest ih =>
    simp only [cascadeGo]
    split_ifs <;> first
      | exact (ih _).cons p
      | exact (ih _).cons₂ p

theorem ppGo_sublist (l : List String) : (ppGo l).Sublist l := by
  induction l with
  | nil => exact List.Sublist.refl _
  | cons p rest ih =>
    simp only [ppGo]
    split_ifs <;> first
      | exact List.Sublist.refl _
      | exact ih.cons p

theorem trailingPostPass_sublist (l : List String) :
    (trailingPostPass l).Sublist l := by
  have h := (ppGo_sublist l.reverse).reverse
  simpa [trailingPostPass] using h

/-- C3: the related-links marker sets a sticky flag: the whole paragraph
pipeline that fills the output container (`excludeCascade` then
`trailingPostPass`, i.e. `paraPipeline`, whose result becomes the
container's `<p>` children in `extract_markup`) keeps only paragraphs
drawn from strictly before the first marker paragraph.  Every output
paragraph is a sublist element of `l1`, the part of the candidate list
before the marker. -/
theorem claim_C3_sticky_related (title m : String) (l1 l2 : List String)
    (hm : markerMatch (pyStrip (pyLower m)) = true) :
    paraPipeline title (l1 ++ m :: l2) = paraPipeline title l1 ∧
    (paraPipeline title (l1 ++ m :: l2)).Sublist l1 := by
  have he : excludeCascade title (l1 ++ m :: l2) = excludeCascade title l1 :=
    cascadeGo_marker _ m l1 l2 hm
  constructor
  · unfold paraPipeline
    rw [he]
  · unfold paraPipeline
    rw [he]
    exact (trailingPostPass_sublist _).trans (cascadeGo_sublist _ _ _)

/-- Witness for C3 at a concrete input. -/
theorem claim_C3_sticky_related_witness :
    paraPipeline "t"
        (["A first real paragraph that is decidedly long enough to stay."] ++
          "Related: Some Other Essay" :: ["Trailing paragraph after marker."]) =
      paraPipeline "t"
        ["A first real paragraph that is decidedly long enough to stay."] ∧
    (paraPipeline "t"
        (["A first real paragraph that is decidedly long enough to stay."] ++
          "Related: Some Other Essay" :: ["Trailing paragraph after marker."])).Sublist
      ["A first real paragraph that is decidedly long enough to stay."] :=
  claim_C3_sticky_related "t" "Related: Some Other Essay"
    ["A first real paragraph that is decidedly long enough to stay."]
    ["Trailing paragraph after marker."] (by decide)

/-! ## Claim C5: `parse_date_string` -/

/-- C5 counterexample: on an unrecognized label with surrounding
whitespace, `parse_date_string` does not return the original label
unchanged — it returns the stripped label (`date_str = date_str.strip()`
runs before the patterns are tried). -/
theorem claim_C5_counterexample :
    parse_date_string " not a date " ≠ ((none : Option String), " not a date ") ∧
    parse_date_string " not a date " = (none, "not a date") := by
  exact ⟨by decide, rfl⟩

/-- C5 amended: the three concrete examples hold, and every input whose
date is not recognized yields the absent sentinel paired with the
*stripped* original label (for the empty string, the empty label); the
function is total, so no input raises. -/
theorem claim_C5_amended :
    parse_date_string "July 2023" = (some "2023-07-01", "July 2023") ∧
    parse_date_string "1993" = (some "1993-01-01", "1993") ∧
    parse_date_string "not a date" = (none, "not a date") ∧
    ∀ s : String, (parse_date_string s).1 = none →
      (parse_date_string s).2 = pyStrip s := by
  refine ⟨rfl, rfl, rfl, ?_⟩
  intro s h
  unfold parse_date_string at h ⊢
  by_cases hs : s = ""
  · subst hs
    rfl
  · simp only [hs, if_false] at h ⊢
    cases hmy : searchMonthYear (pyStrip s).data with
    | some v => simp [hmy] at h
    | none =>
      cases hy : searchYear (pyStrip s).data with
      | some y => simp [hmy, hy] at h
      | none => simp [hmy, hy]

/-- Witness for the amended C5 at a concrete unrecognized input. -/
theorem claim_C5_amended_witness :
    (parse_date_string "wibble").1 = none ∧
    (parse_date_string "wibble").2 = pyStrip "wibble" :=
  ⟨by decide, claim_C5_amended.2.2.2 "wibble" (by decide)⟩

/-! ## Claim C6: `text_to_paragraphs` length filter -/

/-- C6 counterexample: a cleaned candidate of length exactly 10 is
discarded (`len(p) > 10` keeps only lengths ≥ 11), contradicting the
claim that every candidate of length ≥ 10 is retained. -/
theorem claim_C6_counterexample :
    cleanedCandidates "abcdefghij" = ["abcdefghij"] ∧
    ("abcdefghij" : String).length = 10 ∧
    text_to_paragraphs "abcdefghij" = [] := by
  refine ⟨rfl, by decide, rfl⟩

/-- C6 amended: after trimming and collapsing, exactly the candidates of
length at most 10 are discarded: every cleaned candidate of length
strictly greater than 10 is retained, and every retained paragraph is a
cleaned candidate of length strictly greater than 10. -/
theorem claim_C6_amended (text p : String) :
    (p ∈ cleanedCandidates text → 10 < p.length →
      p ∈ text_to_paragraphs text) ∧
    (p ∈ text_to_paragraphs text →
      p ∈ cleanedCandidates text ∧ 10 < p.length) := by
  have hdef : text_to_paragraphs text =
      (cleanedCandidates text).filter (fun p => p ≠ "" && 10 < p.length) := rfl
  constructor
  · intro hc hl
    rw [hdef]
    refine List.mem_filter.mpr ⟨hc, ?_⟩
    have hne : p ≠ "" := by
      intro he
      subst he
      simp [String.length] at hl
    simp [hne, hl]
  · intro hf
    rw [hdef] at hf
    have h := List.mem_filter.mp hf
    refine ⟨h.1, ?_⟩
    have h2 := h.2
    simp at h2
    exact h2.2

/-- Witness for the amended C6: an 11-character candidate is retained. -/
theorem claim_C6_amended_witness :
    "abcdefghijk" ∈ text_to_paragraphs "abcdefghijk" :=
  (claim_C6_amended "abcdefghijk" "abcdefghijk").1 (by decide) (by decide)

/-! ## Claim C7: the image denylist short-circuits before any fetch -/

/-- C7: a URL containing any denylist fragment makes `download_image`
return the absent sentinel with the parser state unchanged and zero
invocations of the fetcher. -/
theorem claim_C7_denylist (env : Env) (st : PState) (url : String)
    (h : skip_patterns.any (fun p => substrOf p (pyLower url)) = true) :
    download_image env st url = (none, st, 0) := by
  unfold download_image
  by_cases hs : env.hasScraper
  · simp [hs, h]
  · simp [hs]

/-- Witness for C7 on a concrete denylisted URL with a live scraper. -/
theorem claim_C7_denylist_witness :
    download_image envPhoto emptyState "http://www.paulgraham.com/spacer.gif" =
      (none, emptyState, 0) :=
  claim_C7_denylist envPhoto emptyState _ (by decide)

/-! ## Claim C4: deterministic filenames and the in-run cache -/

theorem lookup_mem {β : Type} (l : List (String × β)) (k : String) (v : β)
    (h : l.lookup k = some v) : (k, v) ∈ l := by
  induction l with
  | nil => simp [List.lookup] at h
  | cons p t ih =>
    cases p with
    | mk a b =>
      rw [List.lookup] at h
      split at h
      · rename_i hb
        have ha : k = a := by
          have := eq_of_beq hb
          exact this
        cases h
        subst ha
        exact List.mem_cons_self _ _
      · exact List.mem_cons_of_mem _ (ih h)

theorem downloadFresh_spec (env : Env) (st : PState) (url fn : String)
    (data : Bytes) (st' : PState) (k : Nat)
    (h : downloadFresh env st url = (some (fn, data), st', k)) :
    fn = env.md5hex url ++ extFromUrl url ∧
    st'.downloadedImages.lookup url = some fn ∧
    st'.disk.lookup fn = some data := by
  unfold downloadFresh at h
  cases hf : env.fetch url <;> rw [hf] at h
  · simp at h
  · rename_i d
    by_cases he : d.isEmpty
    · simp [he] at h
    · simp only [he, Bool.false_eq_true, if_false] at h
      cases hd : env.decode d <;> rw [hd] at h
      · simp at h
      · rename_i p
        cases p with
        | mk w hgt =>
          dsimp only at h
          split_ifs at h
          · simp at h
          · simp at h
          · simp only [Prod.mk.injEq, Option.some.injEq] at h
            obtain ⟨⟨hfn, hdata⟩, hst, _⟩ := h
            subst hst
            subst hdata
            subst hfn
            refine ⟨rfl, ?_, ?_⟩ <;> simp [List.lookup]

/-- C4: every successful `download_image` resolution names the file by the
digest of the (absolute) URL plus the URL-derived extension, and an
immediate second resolution of the same URL in the same run returns the
identical `(filename, bytes)` pair from the in-run cache with zero
fetcher invocations and no state change.  The `dlWF` hypothesis states
that every cached path already has the shape `download_image` writes
(trivially true of the empty initial state). -/
theorem claim_C4_hash_and_cache (env : Env) (st : PState) (url fn : String)
    (data : Bytes) (st' : PState) (k : Nat)
    (hwf : dlWF env st = true)
    (h : download_image env st url = (some (fn, data), st', k)) :
    fn = env.md5hex url ++ extFromUrl url ∧
    download_image env st' url = (some (fn, data), st', 0) := by
  unfold download_image at h
  by_cases hs : env.hasScraper
  · simp only [hs, Bool.not_true, Bool.false_eq_true, if_false] at h
    by_cases hsk : skip_patterns.any (fun p => substrOf p (pyLower url)) = true
    · simp [hsk] at h
    · simp only [hsk, Bool.false_eq_true, if_false] at h
      have second :
          st'.downloadedImages.lookup url = some fn ∧
          st'.disk.lookup fn = some data →
          download_image env st' url = (some (fn, data), st', 0) := by
        intro ⟨h1, h2⟩
        unfold download_image
        simp only [hs, Bool.not_true, Bool.false_eq_true, if_false, hsk,
          h1, h2]
      cases hl : st.downloadedImages.lookup url with
      | some path =>
        rw [hl] at h
        dsimp only at h
        cases hd : st.disk.lookup path with
        | some d0 =>
          rw [hd] at h
          simp only [Prod.mk.injEq, Option.some.injEq] at h
          obtain ⟨⟨hfn, hdata⟩, hst, _⟩ := h
          subst hfn hdata hst
          have hmem := lookup_mem _ _ _ hl
          have hshape := List.all_eq_true.mp hwf _ hmem
          simp only [decide_eq_true_eq] at hshape
          exact ⟨hshape, second ⟨hl, hd⟩⟩
        | none =>
          rw [hd] at h
          have hspec := downloadFresh_spec env st url fn data st' k h
          exact ⟨hspec.1, second ⟨hspec.2.1, hspec.2.2⟩⟩
      | none =>
        rw [hl] at h
        have hspec := downloadFresh_spec env st url fn data st' k h
        exact ⟨hspec.1, second ⟨hspec.2.1, hspec.2.2⟩⟩
  · simp [hs] at h

/-- Witness for C4 at a concrete URL and environment. -/
theorem claim_C4_hash_and_cache_witness :
    "0a1b2c.png" = envPhoto.md5hex "http://a/photo.png" ++
      extFromUrl "http://a/photo.png" ∧
    download_image envPhoto
        ⟨[("http://a/photo.png", "0a1b2c.png")], [("0a1b2c.png", [7])]⟩
        "http://a/photo.png" =
      (some ("0a1b2c.png", [7]),
       ⟨[("http://a/photo.png", "0a1b2c.png")], [("0a1b2c.png", [7])]⟩, 0) :=
  claim_C4_hash_and_cache envPhoto emptyState "http://a/photo.png"
    "0a1b2c.png" [7]
    ⟨[("http://a/photo.png", "0a1b2c.png")], [("0a1b2c.png", [7])]⟩ 1
    (by decide) (by decide)

/-! ## Claim C8: the YC-ad-only document end to end -/

/-- C8: on the document whose only content is the YC advertisement
sentence, markup-mode extraction produces the empty
`<div class="essay-content">` container (the sentence is excluded by the
navigation-phrase rule: it contains a `nav_words` entry and is shorter
than 100 characters), and `build_chapter_html` applied to that container
returns the rejection signal `""`. -/
theorem claim_C8_yc_ad_rejection :
    extract_main_content envNoScraper emptyState (.markup ycDoc)
        "http://www.paulgraham.com/start.html" "" =
      ("<div class=\"essay-content\"></div>", []) ∧
    (extract_markup envNoScraper emptyState ycDoc
        "http://www.paulgraham.com/start.html" "").container =
      Node.elem "div" [("class", "essay-content")] [] ∧
    build_chapter_html "How to Start a Startup"
      [(extract_markup envNoScraper emptyState ycDoc
          "http://www.paulgraham.com/start.html" "").container] none = "" :=
  ⟨rfl, rfl, rfl⟩

/-! ## Claim C9: the pipeline can raise on malformed image URLs -/

/-- C9 evaluation at the failing input: the document contains
`<img src="//[x">`; `process_images` reaches it inside the selected main
content, `src` does not start with `http`, and
`urljoin(base_url, "//[x")` raises `ValueError: Invalid IPv6 URL`
(the `urlsplit` bracket check), which `extract_main_content` propagates
to its caller — contradicting the claim that extraction never raises. -/
theorem claim_C9_urljoin_raises : extractRaises badImgDoc = true := rfl

/-! ## Claim C10: the output container is plain paragraphs only -/

/-- C10: for every markup-mode input (any parse tree, any environment and
state), the extraction output container is a single
`<div class="essay-content">` whose children are exactly one `<p>` per
surviving paragraph, each containing a single plain text node — so no
`<a>`, `<em>`, `<strong>`, `<code>` or `<img>` element can occur in the
returned body markup, which is the serialization of that container. -/
theorem claim_C10_container_plain (env : Env) (st : PState)
    (doc : List Node) (base title : String) :
    ∃ paras : List String,
      (extract_markup env st doc base title).container =
        Node.elem "div" [("class", "essay-content")]
          (paras.map (fun p => Node.elem "p" [] [Node.text p])) ∧
      extract_main_content env st (.markup doc) base title =
        (serN (extract_markup env st doc base title).container,
         (extract_markup env st doc base title).images) :=
  ⟨_, rfl, rfl⟩

/-! ## Claim C2: filename correspondence between body and image list -/

theorem contains_false_not_mem (l : List String) (a : String)
    (h : l.contains a = false) : a ∉ l := by
  intro hm
  rw [List.contains_eq_any_beq] at h
  have : l.any (a == ·) = true := List.any_eq_true.mpr ⟨a, hm, by simp⟩
  rw [h] at this
  exact Bool.false_ne_true this

mutual
theorem piN_inv (env : Env) (base : String) (n : Node) (acc : ImgAcc)
    (h1 : acc.images.map Prod.fst = acc.seen.reverse)
    (h2 : acc.seen.Nodup) :
    (piN env base n acc).2.images.map Prod.fst =
      (piN env base n acc).2.seen.reverse ∧
    (piN env base n acc).2.seen.Nodup := by
  cases n with
  | text s => exact ⟨h1, h2⟩
  | elem t a cs =>
    rw [piN]
    by_cases ht : t = "img"
    · simp only [ht, if_true]
      cases hsrc : getAttr a "src" with
      | none => exact ⟨h1, h2⟩
      | some src =>
        dsimp only
        by_cases hemp : src = ""
        · simp only [hemp, if_true]
          exact ⟨h1, h2⟩
        · simp only [hemp, if_false]
          cases hdl : (download_image env acc.st
              (if pyStartsWith src "http" then src
               else env.urljoin base src)).1 with
          | none =>
            dsimp only
            exact ⟨h1, h2⟩
          | some r =>
            cases r with
            | mk fn dat =>
              dsimp only
              by_cases hsn : acc.seen.contains fn
              · simp only [hsn, if_true]
                exact ⟨h1, h2⟩
              · simp only [hsn, Bool.false_eq_true, if_false]
                constructor
                · simp [h1, List.map_append]
                · refine List.Nodup.cons ?_ h2
                  exact contains_false_not_mem _ _ (by simpa using hsn)
    · simp only [ht, if_false]
      exact piL_inv env base cs acc h1 h2

theorem piL_inv (env : Env) (base : String) (ns : List Node) (acc : ImgAcc)
    (h1 : acc.images.map Prod.fst = acc.seen.reverse)
    (h2 : acc.seen.Nodup) :
    (piL env base ns acc).2.images.map Prod.fst =
      (piL env base ns acc).2.seen.reverse ∧
    (piL env base ns acc).2.seen.Nodup := by
  cases ns with
  | nil => exact ⟨h1, h2⟩
  | cons n rest =>
    rw [piL]
    have hn := piN_inv env base n acc h1 h2
    cases hp : piN env base n acc with
    | mk res acc' =>
      rw [hp] at hn
      cases res with
      | some n' =>
        dsimp only
        exact piL_inv env base rest acc' hn.1 hn.2
      | none =>
        dsimp only
        exact piL_inv env base rest acc' hn.1 hn.2
end

theorem faL_img_of_paras (ps : List String) :
    faL "img" (ps.map (fun p => Node.elem "p" [] [Node.text p])) = [] := by
  induction ps with
  | nil => rfl
  | cons p rest ih =>
    simp only [List.map_cons, faL, faN]
    rw [ih]
    rfl

/-- C2 amended: in every markup-mode extraction result the image list has
pairwise-distinct filenames and the forward direction holds vacuously:
the output container contains no `<img>` element at all (image tags are
dropped when the text is flattened into paragraphs), so no filename is
referenced in `bodyMarkup` — but entries of `images` are therefore *not*
referenced by the body markup, unlike the claim's reverse direction. -/
theorem claim_C2_amended (env : Env) (st : PState) (doc : List Node)
    (base title : String) :
    (((extract_markup env st doc base title).images.map Prod.fst).Nodup) ∧
    faN "img" (extract_markup env st doc base title).container = [] := by
  constructor
  · have h := piN_inv env base
      (mergeN (brN (selectMain (rmImgL (rmTabL doc))))) ⟨st, [], [], 0⟩
      rfl List.nodup_nil
    have hg : (extract_markup env st doc base title).images =
        (piN env base (mergeN (brN (selectMain (rmImgL (rmTabL doc)))))
          ⟨st, [], [], 0⟩).2.images := rfl
    rw [hg, h.1]
    exact (List.nodup_reverse).mpr h.2
  · have hg : (extract_markup env st doc base title).container =
        mkContainer (extractParas title (getTextSepNL
          (bmN (rlN (match (piN env base
            (mergeN (brN (selectMain (rmImgL (rmTabL doc)))))
            ⟨st, [], [], 0⟩).1 with
            | some n => n
            | none => Node.elem "[document]" [] []))))) := rfl
    rw [hg]
    unfold mkContainer
    rw [faN]
    rw [faL_img_of_paras]
    rw [if_neg (by decide : ¬("div" = "img"))]
    rfl

/-- C2 counterexample: a concrete run in which the image resolves: the
returned list contains the entry `("0a1b2c.png", bytes)` while the body
markup does not even contain the filename as a substring, so the entry
is not referenced in `bodyMarkup`. -/
theorem claim_C2_counterexample :
    extract_main_content envPhoto emptyState (.markup zebraDoc)
        "http://site.test/" "" =
      ("<div class=\"essay-content\"><p>Zebras wander around the wide plains.</p></div>",
       [("0a1b2c.png", [7])]) ∧
    substrOf "0a1b2c.png"
      "<div class=\"essay-content\"><p>Zebras wander around the wide plains.</p></div>" =
      false := by
  exact ⟨rfl, by decide⟩

/-! ## Claim C1: the chapter-assembly length gate -/

theorem tsLen_append (a b : List Node) :
    (textStripL (a ++ b)).length =
      (textStripL a).length + (textStripL b).length := by
  induction a with
  | nil => simp [textStripL]
  | cons n rest ih =>
    show (getTextStripN n ++ textStripL (rest ++ b)).length =
      (getTextStripN n ++ textStripL rest).length + (textStripL b).length
    rw [String.length_append, String.length_append, ih]
    omega

theorem visLen_append (a b : List Node) :
    (visL (a ++ b)).length = (visL a).length + (visL b).length := by
  induction a with
  | nil => simp [visL]
  | cons n rest ih =>
    show (visN n ++ visL (rest ++ b)).length =
      (visN n ++ visL rest).length + (visL b).length
    rw [String.length_append, String.length_append, ih]
    omega

mutual
theorem visN_eq_of_allVisible (n : Node) (h : allVisibleN n = true) :
    visN n = getTextStripN n := by
  cases n with
  | text s => rfl
  | elem t a cs =>
    rw [allVisibleN, Bool.and_eq_true] at h
    rw [visN, getTextStripN]
    rw [if_neg (by simpa using h.1)]
    exact visL_eq_of_allVisible cs h.2

theorem visL_eq_of_allVisible (ns : List Node) (h : allVisibleL ns = true) :
    visL ns = textStripL ns := by
  cases ns with
  | nil => rfl
  | cons n rest =>
    rw [allVisibleL, Bool.and_eq_true] at h
    rw [visL, textStripL, visN_eq_of_allVisible n h.1,
      visL_eq_of_allVisible rest h.2]
end

theorem allVisibleL_append_eq (a b : List Node) :
    allVisibleL (a ++ b) = (allVisibleL a && allVisibleL b) := by
  induction a with
  | nil => simp [allVisibleL]
  | cons n rest ih =>
    show allVisibleL (n :: (rest ++ b)) = _
    rw [allVisibleL, ih]
    show _ = (allVisibleN n && allVisibleL rest && allVisibleL b)
    rw [Bool.and_assoc]

theorem allVisibleL_filter (p : Node → Bool) (l : List Node)
    (h : allVisibleL l = true) : allVisibleL (l.filter p) = true := by
  induction l with
  | nil => exact h
  | cons n rest ih =>
    rw [allVisibleL, Bool.and_eq_true] at h
    rw [List.filter_cons]
    split_ifs
    · rw [allVisibleL, Bool.and_eq_true]
      exact ⟨h.1, ih h.2⟩
    · exact ih h.2

theorem allVisibleL_pWrap (l : List Node) (h : allVisibleL l = true) :
    allVisibleL (pWrap l) = true := by
  induction l with
  | nil => exact h
  | cons n rest ih =>
    cases n with
    | text s =>
      rw [allVisibleL, Bool.and_eq_true] at h
      rw [pWrap]
      split_ifs
      · exact ih h.2
      · have hl : allVisibleL
            ((Node.text s :: rest).takeWhile phrasingNode ++
              (Node.text s :: rest).dropWhile phrasingNode) = true := by
          rw [List.takeWhile_append_dropWhile]
          rw [allVisibleL, Bool.and_eq_true]
          exact ⟨h.1, h.2⟩
        rw [allVisibleL_append_eq, Bool.and_eq_true] at hl
        rw [allVisibleL, Bool.and_eq_true]
        refine ⟨?_, hl.2⟩
        rw [allVisibleN, Bool.and_eq_true]
        exact ⟨by decide, hl.1⟩
    | elem t a cs => exact h

theorem tsLen_filter_flow (l : List Node) (h : bodyFlowL l = true) :
    (textStripL (l.filter isElemNode)).length = (textStripL l).length := by
  induction l with
  | nil => rfl
  | cons n rest ih =>
    unfold bodyFlowL at h
    rw [List.all_cons, Bool.and_eq_true] at h
    have h0 : ("" : String).length = 0 := rfl
    cases n with
    | text s =>
      have hws : stripCL s.data = [] := by
        simpa [bodyFlowN] using h.1
      have hps : pyStrip s = "" := by
        unfold pyStrip
        rw [hws]
      rw [List.filter_cons_of_neg (by simp [isElemNode])]
      rw [ih h.2]
      simp only [textStripL, getTextStripN, hps, String.length_append, h0]
      omega
    | elem t a cs =>
      rw [List.filter_cons_of_pos (by simp [isElemNode])]
      simp only [textStripL, String.length_append, ih h.2]

theorem tsLen_pWrap_filter_flow (l : List Node) (h : bodyFlowL l = true) :
    (textStripL ((pWrap l).filter isElemNode)).length =
      (textStripL l).length := by
  induction l with
  | nil => rfl
  | cons n rest ih =>
    cases n with
    | text s =>
      have h' := h
      unfold bodyFlowL at h'
      rw [List.all_cons, Bool.and_eq_true] at h'
      have hws : stripCL s.data = [] := by
        simpa [bodyFlowN] using h'.1
      have hps : pyStrip s = "" := by
        unfold pyStrip
        rw [hws]
      rw [pWrap, if_pos hws, ih h'.2]
      have h0 : ("" : String).length = 0 := rfl
      simp only [textStripL, getTextStripN, hps, String.length_append, h0]
      omega
    | elem t a cs => exact tsLen_filter_flow (Node.elem t a cs :: rest) h

/-- When the stripped fragment is body-flow shaped — every top-level node
an element or whitespace-only text — the `if tag.name` element filter of
the re-parse loses no stripped text.  (For a bare non-leading text node
this fails: the filter drops it, which is the corrected content of
claim C1.) -/
theorem tsLen_cleanNodes_flow (content : List Node)
    (h : bodyFlowL (swL content) = true) :
    (textStripL (cleanNodes content)).length =
      (textStripL (swL content)).length :=
  tsLen_pWrap_filter_flow (swL content) h

theorem dropWhile_all_ws (l : List Char)
    (h : ∀ c ∈ l.dropWhile isPyWs, isPyWs c = true) :
    ∀ c ∈ l, isPyWs c = true := by
  induction l with
  | nil => intro c hc; cases hc
  | cons x xs ih =>
    intro c hc
    by_cases hx : isPyWs x
    · rw [List.dropWhile_cons, if_pos hx] at h
      cases hc with
      | head => exact hx
      | tail _ hm => exact ih h c hm
    · rw [List.dropWhile_cons, if_neg hx] at h
      exact h c hc

theorem stripCL_nil_all_ws (l : List Char) (h : stripCL l = []) :
    ∀ c ∈ l, isPyWs c = true := by
  unfold stripCL at h
  rw [List.reverse_eq_nil_iff, List.dropWhile_eq_nil_iff] at h
  refine dropWhile_all_ws l ?_
  intro c hc
  exact h c (List.mem_reverse.mpr hc)

theorem pyStrip_ne_empty (s : String) (c : Char) (hc : c ∈ s.data)
    (hw : isPyWs c = false) : pyStrip s ≠ "" := by
  intro he
  have hdata : stripCL s.data = [] := congrArg String.data he
  have := stripCL_nil_all_ws s.data hdata c hc
  rw [hw] at this
  exact Bool.false_ne_true this

theorem serL_elem_has_lt (t : String) (a : List (String × String))
    (cs rest : List Node) :
    '<' ∈ (serL (Node.elem t a cs :: rest)).data := by
  rw [serL, String.data_append]
  refine List.mem_append.mpr (Or.inl ?_)
  rw [serN]
  split_ifs <;>
    · rw [String.data_append, String.data_append]
      exact List.mem_append.mpr (Or.inl (List.mem_append.mpr (Or.inl
        (by rw [String.data_append]; exact List.mem_cons_self _ _))))

/-- When the stripped content is body-flow shaped and its gate text is
nonempty, the clean content cannot strip to the empty string: the
filtered nodes are elements whose serialization starts with `<`. -/
theorem cleanContent_not_blank (content : List Node)
    (hflow : bodyFlowL (swL content) = true)
    (h : 0 < (textStripL (swL content)).length) :
    pyStrip (serL (cleanNodes content)) ≠ "" := by
  have hlen : 0 < (textStripL (cleanNodes content)).length := by
    rw [tsLen_cleanNodes_flow content hflow]
    exact h
  cases hcn : cleanNodes content with
  | nil =>
    rw [hcn] at hlen
    simp [textStripL, String.length] at hlen
  | cons c0 rest =>
    have hc0 : isElemNode c0 = true := by
      have hm : c0 ∈ cleanNodes content := by
        rw [hcn]
        exact List.mem_cons_self _ _
      exact List.of_mem_filter hm
    cases c0 with
    | text s => simp [isElemNode] at hc0
    | elem t a cs =>
      exact pyStrip_ne_empty _ '<' (serL_elem_has_lt t a cs rest) (by decide)

/-- C1 amended: (i) whenever the stripped content's `get_text` length is
below 100 the assembler returns the rejection signal `""`; (ii) a chapter
is produced only when that `get_text` length is at least 100; (iii) when
additionally every top-level node of the stripped content is an element
or whitespace-only text (so the `if tag.name` element filter loses no
visible text) and the content contains no invisible-text elements
(scripts, styles, head metadata — whose embedded text `get_text` counts
although it is not rendered), the produced chapter's body visible text is
at least 100 characters.  Without either of (iii)'s provisos the final
clause is false of the program, see the counterexample's two inputs. -/
theorem claim_C1_amended (title : String) (content : List Node)
    (date_str : Option String) :
    ((textStripL (swL content)).length < 100 →
      build_chapter_html title content date_str = "") ∧
    (build_chapter_html title content date_str ≠ "" →
      100 ≤ (textStripL (swL content)).length) ∧
    (bodyFlowL (swL content) = true →
      allVisibleL (swL content) = true →
      build_chapter_html title content date_str ≠ "" →
      100 ≤ (chapterVisibleBodyText title content date_str).length) := by
  refine ⟨?_, ?_, ?_⟩
  · intro h
    unfold build_chapter_html
    rw [if_pos h]
  · intro h
    by_cases hl : (textStripL (swL content)).length < 100
    · exfalso
      apply h
      unfold build_chapter_html
      rw [if_pos hl]
    · omega
  · intro hflow hvis h
    have hlen : 100 ≤ (textStripL (swL content)).length := by
      by_cases hl : (textStripL (swL content)).length < 100
      · exfalso
        apply h
        unfold build_chapter_html
        rw [if_pos hl]
      · omega
    have hne : pyStrip (serL (cleanNodes content)) ≠ "" :=
      cleanContent_not_blank content hflow (by omega)
    have hviscn : allVisibleL (cleanNodes content) = true :=
      allVisibleL_filter _ _ (allVisibleL_pWrap (swL content) hvis)
    unfold chapterVisibleBodyText chapterBodyNodes
    rw [if_neg hne, visLen_append, visLen_append]
    rw [visL_eq_of_allVisible _ hviscn]
    have := tsLen_cleanNodes_flow content hflow
    omega

/-- C1 counterexample, two failure modes.  First: with a 150-character
`<script>` body the gate's `get_text` length is 152, a chapter is
produced, yet the stripped content's visible text is 2 characters and
the chapter body's visible text is 3 — "only when the visible text
length is at least 100" and "never a chapter whose body visible text is
shorter than 100" both fail.  Second: even with no invisible elements at
all, `<p>ab</p>` followed by 100 bare characters passes the gate (102),
but the bare text is not part of a leading implied `<p>`, so the
`if tag.name` filter drops it and the produced chapter's body visible
text is 3 characters. -/
theorem claim_C1_counterexample :
    (build_chapter_html "T" scriptContent none ≠ "" ∧
     (visL (swL scriptContent)).length < 100 ∧
     (chapterVisibleBodyText "T" scriptContent none).length < 100) ∧
    (allVisibleL (swL bareTailContent) = true ∧
     build_chapter_html "T" bareTailContent none ≠ "" ∧
     (chapterVisibleBodyText "T" bareTailContent none).length < 100) := by
  exact ⟨⟨by decide, by decide, by decide⟩, ⟨by decide, by decide, by decide⟩⟩

/-- Witness for the amended C1, exercising the rejection branch and the
visible-length bound at concrete contents. -/
theorem claim_C1_amended_witness :
    build_chapter_html "T" [Node.elem "p" [] [Node.text "Short"]] none = "" ∧
    100 ≤ (chapterVisibleBodyText "T" longContent none).length :=
  ⟨(claim_C1_amended "T" [Node.elem "p" [] [Node.text "Short"]] none).1
      (by decide),
   (claim_C1_amended "T" longContent none).2.2 (by decide) (by decide)
     (by decide)⟩
